import Mathlib

/-!
GateKeeper: verification of the selection engine, health registry,
admission gate, dispatch middleware and response interception.

Shallow embedding of the Go sources under `internal/` (loadbalancer,
metrics, middleware, gateway).  Go `int` weights become `Int`; the
round-robin cursor (a non-negative Go int, reset before 1,000,000) becomes
`Nat`; random draws (`rand.Intn`) become explicit parameters; logger and
Prometheus side effects become explicit event lists; wall-clock instants
(for the token bucket) become `ℚ` seconds.
-/

namespace GateKeeper

/-- Go struct `config.Backend` from `internal/config/config.go`. -/
structure Backend where
  name : String
  url : String
  weight : Int
  health : String
deriving Repr, DecidableEq

/-- Go struct `BackendStatus` from `internal/loadbalancer/loadbalancer.go`. -/
structure BackendStatus where
  backend : Backend
  healthy : Bool
  weight : Int
deriving Repr, DecidableEq

/-- Go struct `LoadBalancer`: the mutable state (backends slice, round-robin cursor,
algorithm name) from `internal/loadbalancer/loadbalancer.go`. -/
structure LoadBalancer where
  backends : List BackendStatus
  currentIndex : Nat
  algorithm : String
deriving Repr, DecidableEq

/-- Logger side effects emitted by `SetBackendHealth` (an `Info` line on an
actual health transition, a `Warn` line when the name is unknown). -/
inductive LogEvent where
  | infoHealthChanged : String → Bool → Bool → LogEvent
  | warnBackendNotFound : String → LogEvent
deriving Repr, DecidableEq

/-- Function `getHealthyBackendsLocked`: the entries whose `Healthy` flag is true,
in registration order. -/
def getHealthyBackendsLocked (backends : List BackendStatus) : List BackendStatus :=
  backends.filter (·.healthy)

/-- Function `roundRobin`: index the healthy snapshot at `currentIndex mod len`,
advance the cursor, reset it to 0 once it reaches 1,000,000. -/
def roundRobin (lb : LoadBalancer) (healthy : List BackendStatus) :
    Option Backend × LoadBalancer :=
  if h : healthy = [] then (none, lb)
  else
    let b := healthy.get ⟨lb.currentIndex % healthy.length,
      Nat.mod_lt _ (List.length_pos.mpr h)⟩
    let incd := lb.currentIndex + 1
    (some b.backend,
      { lb with currentIndex := if incd ≥ 1000000 then 0 else incd })

/-- The accumulation walk inside `weightedRoundRobin`: add each entry's
weight to the running total and select the first entry whose cumulative
weight exceeds the draw. -/
def weightedWalk (draw : Int) (acc : Int) : List BackendStatus → Option Backend
  | [] => none
  | b :: rest =>
      if draw < acc + b.weight then some b.backend
      else weightedWalk draw (acc + b.weight) rest

/-- Total weight of a snapshot, as computed by the loop at the top of
`weightedRoundRobin`. -/
def totalWeightOf (healthy : List BackendStatus) : Int :=
  (healthy.map (·.weight)).sum

/-- Function `weightedRoundRobin`: fall back to `roundRobin` on zero total weight,
otherwise walk the snapshot with a random draw in `[0, totalWeight)`;
defensively return the first entry if the walk selects nothing. -/
def weightedRoundRobin (lb : LoadBalancer) (healthy : List BackendStatus)
    (draw : Int) : Option Backend × LoadBalancer :=
  match healthy with
  | [] => (none, lb)
  | b0 :: _ =>
      if totalWeightOf healthy = 0 then roundRobin lb healthy
      else
        match weightedWalk draw 0 healthy with
        | some b => (some b, lb)
        | none => (some b0.backend, lb)

/-- Function `randomBackend`: uniform pick by index; the draw models
`rand.Intn(len(healthyBackends))`, hence is `< length` at every call site. -/
def randomBackend (lb : LoadBalancer) (healthy : List BackendStatus)
    (draw : Nat) : Option Backend × LoadBalancer :=
  match healthy with
  | [] => (none, lb)
  | b0 :: rest => (((b0 :: rest).get? draw).map (·.backend), lb)

/-- Function `NextBackend`: snapshot the healthy set; if empty return `none`;
otherwise dispatch on the algorithm string (`least_connections` and any
unrecognized name both fall through to round robin). -/
def NextBackend (lb : LoadBalancer) (draw : Nat) :
    Option Backend × LoadBalancer :=
  let healthy := getHealthyBackendsLocked lb.backends
  if healthy = [] then (none, lb)
  else
    match lb.algorithm with
    | "weighted_round_robin" => weightedRoundRobin lb healthy (Int.ofNat draw)
    | "random" => randomBackend lb healthy draw
    | "least_connections" => roundRobin lb healthy
    | _ => roundRobin lb healthy

/-- Body of `SetBackendHealth`: scan for the first entry with the given
name; on a real transition flip the flag and log at info; if found with the
same value do nothing; if no entry matches, log a warning and leave the
list unchanged. -/
def setBackendHealthAux (name : String) (healthy : Bool) :
    List BackendStatus → List BackendStatus × List LogEvent
  | [] => ([], [LogEvent.warnBackendNotFound name])
  | b :: rest =>
      if b.backend.name = name then
        if b.healthy ≠ healthy then
          ({ b with healthy := healthy } :: rest,
            [LogEvent.infoHealthChanged name b.healthy healthy])
        else (b :: rest, [])
      else
        let (rest2, evs) := setBackendHealthAux name healthy rest
        (b :: rest2, evs)

/-- Function `SetBackendHealth` on the whole balancer state, returning the log
events it emits (it has no failure result: its Go signature returns
nothing). -/
def SetBackendHealth (lb : LoadBalancer) (name : String) (healthy : Bool) :
    LoadBalancer × List LogEvent :=
  let (bs, evs) := setBackendHealthAux name healthy lb.backends
  ({ lb with backends := bs }, evs)

/-! ## `internal/metrics/metrics.go`: the response-status interceptor -/

/-- One call made by an inner handler against the wrapped response writer:
either a `WriteHeader(code)` or a body `Write(data)`. -/
inductive WriteEvent where
  | header : Nat → WriteEvent
  | body : String → WriteEvent
deriving Repr, DecidableEq

/-- Go struct `metrics.ResponseWriter`: the recorded status code plus the calls
passed through to the embedded underlying `http.ResponseWriter`. -/
structure ResponseWriter where
  statusCode : Nat
  underlyingHeaders : List Nat
  underlyingBody : List String
deriving Repr, DecidableEq

/-- Constructor `metrics.NewResponseWriter`: starts at `http.StatusOK` with nothing
yet forwarded to the underlying writer. -/
def NewResponseWriter : ResponseWriter :=
  ⟨200, [], []⟩

/-- Method `ResponseWriter.WriteHeader`: store the code and pass the call
through. -/
def writeHeader (rw : ResponseWriter) (code : Nat) : ResponseWriter :=
  { rw with statusCode := code,
            underlyingHeaders := rw.underlyingHeaders ++ [code] }

/-- Method `Write` is inherited from the embedded writer: the wrapper forwards the
data unchanged and touches no recorded state. -/
def writeBody (rw : ResponseWriter) (data : String) : ResponseWriter :=
  { rw with underlyingBody := rw.underlyingBody ++ [data] }

/-- Run a sequence of handler calls against the wrapper. -/
def runWrites (rw : ResponseWriter) : List WriteEvent → ResponseWriter
  | [] => rw
  | WriteEvent.header c :: rest => runWrites (writeHeader rw c) rest
  | WriteEvent.body s :: rest => runWrites (writeBody rw s) rest

/-- Method `ResponseWriter.StatusCode`: `strconv.Itoa` of the recorded code. -/
def statusCodeStr (rw : ResponseWriter) : String :=
  toString rw.statusCode

/-- The header codes of an event sequence, in order. -/
def headerCodes : List WriteEvent → List Nat
  | [] => []
  | WriteEvent.header c :: rest => c :: headerCodes rest
  | WriteEvent.body _ :: rest => headerCodes rest

/-- The body writes of an event sequence, in order. -/
def bodyWrites : List WriteEvent → List String
  | [] => []
  | WriteEvent.header _ :: rest => bodyWrites rest
  | WriteEvent.body s :: rest => s :: bodyWrites rest

/-! ## `internal/middleware/middleware.go`: admission gate and metrics
middleware -/

/-- Prometheus side effects the middleware can emit (`RecordRequest`,
`RecordBackendRequest`, `RecordRateLimit`). -/
inductive MetricEvent where
  | request : String → String → String → ℚ → MetricEvent
  | backendRequest : String → String → MetricEvent
  | rateLimited : MetricEvent
deriving Repr, DecidableEq

/-- Modelled from the spec: the process-wide token bucket behind
`RateLimitMiddleware` is the external `golang.org/x/time/rate.Limiter`,
whose code is not part of this repository.  Per §3 RateBudget and §4.4:
tokens refill continuously at `limit` tokens/second up to the `burst`
cap; the bucket starts full; `Allow` consumes one token iff at least one
is available and consumes nothing otherwise.  Instants are ℚ seconds. -/
structure RateLimiter where
  limit : ℚ
  burst : Nat
  tokens : ℚ
  lastTime : ℚ
deriving Repr, DecidableEq

/-- Refill the bucket for the elapsed time, capping at the burst size. -/
def advanceBucket (l : RateLimiter) (now : ℚ) : RateLimiter :=
  { l with tokens := min (l.burst : ℚ) (l.tokens + l.limit * (now - l.lastTime)),
           lastTime := now }

/-- Method `limiter.Allow()` at instant `now`: refill, then consume one token iff
one is available. -/
def allowAt (l : RateLimiter) (now : ℚ) : Bool × RateLimiter :=
  let l2 := advanceBucket l now
  if 1 ≤ l2.tokens then (true, { l2 with tokens := l2.tokens - 1 })
  else (false, l2)

/-- Constructor `NewRateLimiter(requestsPerMinute, burstSize)`: rate is requests per
minute divided by 60, the bucket starts with `burst` tokens. -/
def NewRateLimiter (requestsPerMinute burstSize : Nat) : RateLimiter :=
  ⟨(requestsPerMinute : ℚ) / 60, burstSize, (burstSize : ℚ), 0⟩

/-- An HTTP response as far as the middleware is concerned: status,
response headers, body. -/
structure HttpResponse where
  status : Nat
  headers : List (String × String)
  body : String
deriving Repr, DecidableEq

/-- Method `RateLimitMiddleware.Wrap` on one request: requests whose path is
exactly `/health` or `/metrics` go straight to the inner handler; otherwise
consult `limiter.Allow()`, and on rejection record the rate-limit metric,
set `Retry-After: 60` and answer 429 via `http.Error`. -/
def rateLimitWrap (lim : RateLimiter) (now : ℚ) (path : String)
    (inner : HttpResponse) : HttpResponse × RateLimiter × List MetricEvent :=
  if path = "/health" ∨ path = "/metrics" then (inner, lim, [])
  else
    match allowAt lim now with
    | (true, lim2) => (inner, lim2, [])
    | (false, lim2) =>
        (⟨429, [("Retry-After", "60")], "Rate limit exceeded\n"⟩, lim2,
          [MetricEvent.rateLimited])

/-- Method `MetricsMiddleware.Wrap` on one request: wrap the writer, run the inner
handler, then record one generic request metric with backend label
`gateway` — unless the path is exactly `/metrics`. -/
def metricsWrap (method path : String) (innerWrites : List WriteEvent)
    (duration : ℚ) : List MetricEvent :=
  let rw := runWrites NewResponseWriter innerWrites
  if path ≠ "/metrics" then
    [MetricEvent.request method (statusCodeStr rw) "gateway" duration]
  else []

/-! ## `internal/gateway/gateway.go`: the health endpoint -/

/-- Handler `healthHandler`: status 503 and `"unhealthy"` when no backend is
healthy, implicit 200 and `"healthy"` otherwise; the body interpolates the
healthy count. -/
def healthHandler (lb : LoadBalancer) : Nat × String :=
  let backends := getHealthyBackendsLocked lb.backends
  let status := if backends.length = 0 then "unhealthy" else "healthy"
  let code : Nat := if backends.length = 0 then 503 else 200
  (code, "\x7b\"status\":\"" ++ status ++ "\",\"healthy_backends\":"
    ++ toString backends.length ++ "\x7d")

/-! ## Helper lemmas about the selection engine -/

theorem roundRobin_fst (lb : LoadBalancer) (healthy : List BackendStatus)
    (h : healthy ≠ []) :
    (roundRobin lb healthy).1 =
      some ((healthy.get ⟨lb.currentIndex % healthy.length,
        Nat.mod_lt _ (List.length_pos.mpr h)⟩).backend) := by
  simp [roundRobin, h]

theorem roundRobin_backends (lb : LoadBalancer) (healthy : List BackendStatus) :
    (roundRobin lb healthy).2.backends = lb.backends := by
  unfold roundRobin
  split <;> rfl

theorem weightedWalk_some_mem (draw : Int) (b : Backend) :
    ∀ (l : List BackendStatus) (acc : Int), weightedWalk draw acc l = some b →
      ∃ s ∈ l, s.backend = b := by
  intro l
  induction l with
  | nil => intro acc h; simp [weightedWalk] at h
  | cons s rest ih =>
      intro acc h
      rw [weightedWalk] at h
      by_cases hlt : draw < acc + s.weight
      · rw [if_pos hlt] at h
        exact ⟨s, List.mem_cons_self s rest, (Option.some_inj.mp h).symm ▸ rfl⟩
      · rw [if_neg hlt] at h
        obtain ⟨t, ht, hb⟩ := ih (acc + s.weight) h
        exact ⟨t, List.mem_cons_of_mem s ht, hb⟩

theorem weightedRoundRobin_fst_mem (lb : LoadBalancer)
    (healthy : List BackendStatus) (draw : Int) (b : Backend)
    (h : (weightedRoundRobin lb healthy draw).1 = some b) :
    ∃ s ∈ healthy, s.backend = b := by
  match healthy with
  | [] => simp [weightedRoundRobin] at h
  | b0 :: rest =>
      rw [weightedRoundRobin] at h
      by_cases hz : totalWeightOf (b0 :: rest) = 0
      · rw [if_pos hz] at h
        rw [roundRobin_fst lb (b0 :: rest) (by simp)] at h
        exact ⟨_, List.get_mem _ _ _, Option.some_inj.mp h⟩
      · rw [if_neg hz] at h
        cases hw : weightedWalk draw 0 (b0 :: rest) with
        | some b2 =>
            rw [hw] at h
            simp only [Option.some_inj] at h
            obtain ⟨s, hs, hsb⟩ := weightedWalk_some_mem draw b2 (b0 :: rest) 0 hw
            exact ⟨s, hs, hsb.trans h⟩
        | none =>
            rw [hw] at h
            simp only [Option.some_inj] at h
            exact ⟨b0, List.mem_cons_self b0 rest, h⟩

theorem weightedRoundRobin_fst_isSome (lb : LoadBalancer)
    (healthy : List BackendStatus) (draw : Int) (h : healthy ≠ []) :
    ((weightedRoundRobin lb healthy draw).1).isSome := by
  match healthy with
  | b0 :: rest =>
      rw [weightedRoundRobin]
      by_cases hz : totalWeightOf (b0 :: rest) = 0
      · rw [if_pos hz, roundRobin_fst lb (b0 :: rest) (by simp)]; rfl
      · rw [if_neg hz]
        cases hw : weightedWalk draw 0 (b0 :: rest) <;> simp [hw]

theorem randomBackend_fst (lb : LoadBalancer) (healthy : List BackendStatus)
    (draw : Nat) (h : draw < healthy.length) :
    (randomBackend lb healthy draw).1 =
      some ((healthy.get ⟨draw, h⟩).backend) := by
  match healthy, h with
  | b0 :: rest, h =>
      rw [randomBackend, List.get?_eq_get h]
      rfl

theorem nextBackend_fst_mem (lb : LoadBalancer) (draw : Nat) (b : Backend)
    (h : (NextBackend lb draw).1 = some b) :
    ∃ s ∈ getHealthyBackendsLocked lb.backends, s.backend = b := by
  rw [NextBackend] at h
  by_cases hne : getHealthyBackendsLocked lb.backends = []
  · simp [hne] at h
  · simp only [if_neg hne] at h
    split at h
    · exact weightedRoundRobin_fst_mem _ _ _ _ h
    · obtain ⟨b0, rest, hh⟩ := List.exists_cons_of_ne_nil hne
      rw [hh, randomBackend] at h
      cases hg : (b0 :: rest).get? draw with
      | none => rw [hg] at h; exact Option.noConfusion h
      | some s =>
          rw [hg] at h
          simp only [Option.map_some', Option.some.injEq] at h
          exact ⟨s, by rw [hh]; exact List.get?_mem hg, h⟩
    · rw [roundRobin_fst lb _ hne] at h
      exact ⟨_, List.get_mem _ _ _, Option.some_inj.mp h⟩
    · rw [roundRobin_fst lb _ hne] at h
      exact ⟨_, List.get_mem _ _ _, Option.some_inj.mp h⟩

theorem nextBackend_backends (lb : LoadBalancer) (draw : Nat) :
    (NextBackend lb draw).2.backends = lb.backends := by
  rw [NextBackend]
  by_cases hne : getHealthyBackendsLocked lb.backends = []
  · simp [hne]
  · simp only [if_neg hne]
    obtain ⟨b0, rest, hh⟩ := List.exists_cons_of_ne_nil hne
    split
    · rw [hh, weightedRoundRobin]
      by_cases hz : totalWeightOf (b0 :: rest) = 0
      · rw [if_pos hz]; exact roundRobin_backends _ _
      · rw [if_neg hz]
        cases hw : weightedWalk (Int.ofNat draw) 0 (b0 :: rest) <;> simp [hw]
    · rw [hh, randomBackend]
    · exact roundRobin_backends _ _
    · exact roundRobin_backends _ _

/-- C1 — the function `NextBackend` returns `none` exactly on an empty healthy set, and
on an empty healthy set it also leaves the state untouched, so the `none`
answer repeats deterministically until some health flag changes.  The draw
bound mirrors `rand.Intn(len(healthyBackends))`, which is always below the
snapshot length. -/
theorem nextBackend_none_iff_no_healthy (lb : LoadBalancer) (draw : Nat)
    (hdraw : getHealthyBackendsLocked lb.backends ≠ [] →
      draw < (getHealthyBackendsLocked lb.backends).length) :
    ((NextBackend lb draw).1 = none ↔ getHealthyBackendsLocked lb.backends = [])
    ∧ (getHealthyBackendsLocked lb.backends = [] →
        NextBackend lb draw = (none, lb)) := by
  by_cases hne : getHealthyBackendsLocked lb.backends = []
  · constructor
    · constructor
      · intro _; exact hne
      · intro _; rw [NextBackend]; simp [hne]
    · intro _; rw [NextBackend]; simp [hne]
  · constructor
    · constructor
      · intro hnone
        exfalso
        rw [NextBackend] at hnone
        simp only [if_neg hne] at hnone
        split at hnone
        · have := weightedRoundRobin_fst_isSome lb
            (getHealthyBackendsLocked lb.backends) (Int.ofNat draw) hne
          rw [hnone] at this; exact Bool.noConfusion this
        · rw [randomBackend_fst lb _ draw (hdraw hne)] at hnone
          exact Option.noConfusion hnone
        · rw [roundRobin_fst lb _ hne] at hnone
          exact Option.noConfusion hnone
        · rw [roundRobin_fst lb _ hne] at hnone
          exact Option.noConfusion hnone
      · intro h; exact absurd h hne
    · intro h; exact absurd h hne

/-- C1 witness: one healthy backend, draw 0. -/
theorem nextBackend_none_iff_no_healthy_witness :
    ((NextBackend ⟨[⟨⟨"b1", "http://localhost:3001", 50, "/health"⟩, true, 50⟩],
        0, "round_robin"⟩ 0).1 = none ↔
      getHealthyBackendsLocked
        (⟨[⟨⟨"b1", "http://localhost:3001", 50, "/health"⟩, true, 50⟩],
          0, "round_robin"⟩ : LoadBalancer).backends = [])
    ∧ (getHealthyBackendsLocked
        (⟨[⟨⟨"b1", "http://localhost:3001", 50, "/health"⟩, true, 50⟩],
          0, "round_robin"⟩ : LoadBalancer).backends = [] →
        NextBackend ⟨[⟨⟨"b1", "http://localhost:3001", 50, "/health"⟩, true, 50⟩],
          0, "round_robin"⟩ 0 =
          (none, ⟨[⟨⟨"b1", "http://localhost:3001", 50, "/health"⟩, true, 50⟩],
            0, "round_robin"⟩)) :=
  nextBackend_none_iff_no_healthy _ 0 (fun _ => by decide)

/-! ## Iterated selection (claim C2) -/

/-- The balancer state after `k` consecutive `NextBackend` calls. -/
def stateAfter (lb : LoadBalancer) (draw : Nat) : Nat → LoadBalancer
  | 0 => lb
  | k + 1 => (NextBackend (stateAfter lb draw k) draw).2

/-- The result of the `(k+1)`-th consecutive `NextBackend` call. -/
def callResult (lb : LoadBalancer) (draw : Nat) (k : Nat) : Option Backend :=
  (NextBackend (stateAfter lb draw k) draw).1

theorem nextBackend_rr (lb : LoadBalancer) (draw : Nat)
    (halg : lb.algorithm = "round_robin")
    (hne : getHealthyBackendsLocked lb.backends ≠ []) :
    NextBackend lb draw = roundRobin lb (getHealthyBackendsLocked lb.backends) := by
  simp only [NextBackend, if_neg hne, halg]
  rfl

theorem roundRobin_snd_small (lb : LoadBalancer) (healthy : List BackendStatus)
    (h : healthy ≠ []) (hc : lb.currentIndex + 1 < 1000000) :
    (roundRobin lb healthy).2 = { lb with currentIndex := lb.currentIndex + 1 } := by
  have hlt : ¬ (lb.currentIndex + 1 ≥ 1000000) := by omega
  simp [roundRobin, h, hlt]

theorem stateAfter_rr (lb : LoadBalancer) (draw : Nat)
    (halg : lb.algorithm = "round_robin")
    (hne : getHealthyBackendsLocked lb.backends ≠ []) :
    ∀ k, lb.currentIndex + k ≤ 999999 →
      stateAfter lb draw k = { lb with currentIndex := lb.currentIndex + k } := by
  intro k
  induction k with
  | zero => intro _; rfl
  | succ k ih =>
      intro hk
      have hk' : lb.currentIndex + k ≤ 999999 := by omega
      rw [stateAfter, ih hk']
      have hb : getHealthyBackendsLocked
          ({ lb with currentIndex := lb.currentIndex + k } : LoadBalancer).backends ≠ [] := hne
      rw [nextBackend_rr { lb with currentIndex := lb.currentIndex + k } draw halg hb,
        roundRobin_snd_small _ _ hb
          (by show lb.currentIndex + k + 1 < 1000000; omega)]
      rfl

theorem callResult_rr (lb : LoadBalancer) (draw : Nat)
    (halg : lb.algorithm = "round_robin")
    (hne : getHealthyBackendsLocked lb.backends ≠ [])
    (k : Nat) (hk : lb.currentIndex + k ≤ 999999) :
    callResult lb draw k =
      ((getHealthyBackendsLocked lb.backends).get?
        ((lb.currentIndex + k) % (getHealthyBackendsLocked lb.backends).length)).map
        (·.backend) := by
  rw [callResult, stateAfter_rr lb draw halg hne k hk]
  have hb : getHealthyBackendsLocked
      ({ lb with currentIndex := lb.currentIndex + k } : LoadBalancer).backends ≠ [] := hne
  rw [nextBackend_rr { lb with currentIndex := lb.currentIndex + k } draw halg hb,
    roundRobin_fst _ _ hb,
    List.get?_eq_get (Nat.mod_lt _ (List.length_pos.mpr hne))]
  rfl

/-- C2 (amended) — with the algorithm `round_robin`, a non-empty healthy
set of size `N` and a cursor `c` with `c + N ≤ 999999` (so the rotation
does not cross the cursor-reset safety valve at 1,000,000), `N` consecutive
`NextBackend` calls visit every healthy backend exactly once — the list of
results is a permutation of the healthy snapshot — and the `(N+1)`-th call
repeats the first. -/
theorem roundRobin_rotation_no_wrap (lb : LoadBalancer)
    (halg : lb.algorithm = "round_robin")
    (hne : getHealthyBackendsLocked lb.backends ≠ [])
    (hc : lb.currentIndex + (getHealthyBackendsLocked lb.backends).length ≤ 999999) :
    List.Perm
      ((List.range (getHealthyBackendsLocked lb.backends).length).map
        (fun k => callResult lb 0 k))
      ((getHealthyBackendsLocked lb.backends).map (fun s => some s.backend))
    ∧ callResult lb 0 (getHealthyBackendsLocked lb.backends).length
        = callResult lb 0 0 := by
  have hNpos : 0 < (getHealthyBackendsLocked lb.backends).length :=
    List.length_pos.mpr hne
  constructor
  · have hlist : (List.range (getHealthyBackendsLocked lb.backends).length).map
          (fun k => callResult lb 0 k)
        = ((getHealthyBackendsLocked lb.backends).rotate lb.currentIndex).map
          (fun s => some s.backend) := by
      apply List.ext_get?'
      intro n hn
      by_cases hlt : n < (getHealthyBackendsLocked lb.backends).length
      · rw [List.get?_map, List.get?_map, List.get?_range hlt,
          List.get?_rotate hlt, Nat.add_comm n lb.currentIndex]
        have hml : (lb.currentIndex + n) % (getHealthyBackendsLocked lb.backends).length
            < (getHealthyBackendsLocked lb.backends).length := Nat.mod_lt _ hNpos
        rw [List.get?_eq_get hml]
        simp only [Option.map_some']
        rw [callResult_rr lb 0 halg hne n (by omega), List.get?_eq_get hml]
        rfl
      · rw [List.get?_eq_none.mpr, List.get?_eq_none.mpr]
        · rw [List.length_map, List.length_rotate]; omega
        · rw [List.length_map, List.length_range]; omega
    rw [hlist]
    exact (List.rotate_perm (getHealthyBackendsLocked lb.backends) lb.currentIndex).map _
  · rw [callResult_rr lb 0 halg hne _ hc,
        callResult_rr lb 0 halg hne 0 (by omega),
        Nat.add_zero, Nat.add_mod_right]

/-- C2 witness for the amended rotation theorem: two healthy backends,
cursor 0. -/
theorem roundRobin_rotation_no_wrap_witness :
    List.Perm
      ((List.range (getHealthyBackendsLocked
          (⟨[⟨⟨"b1", "u1", 50, "/health"⟩, true, 50⟩,
             ⟨⟨"b2", "u2", 50, "/health"⟩, true, 50⟩],
            0, "round_robin"⟩ : LoadBalancer).backends).length).map
        (fun k => callResult ⟨[⟨⟨"b1", "u1", 50, "/health"⟩, true, 50⟩,
             ⟨⟨"b2", "u2", 50, "/health"⟩, true, 50⟩], 0, "round_robin"⟩ 0 k))
      ((getHealthyBackendsLocked
          (⟨[⟨⟨"b1", "u1", 50, "/health"⟩, true, 50⟩,
             ⟨⟨"b2", "u2", 50, "/health"⟩, true, 50⟩],
            0, "round_robin"⟩ : LoadBalancer).backends).map (fun s => some s.backend))
    ∧ callResult ⟨[⟨⟨"b1", "u1", 50, "/health"⟩, true, 50⟩,
             ⟨⟨"b2", "u2", 50, "/health"⟩, true, 50⟩], 0, "round_robin"⟩ 0
        (getHealthyBackendsLocked
          (⟨[⟨⟨"b1", "u1", 50, "/health"⟩, true, 50⟩,
             ⟨⟨"b2", "u2", 50, "/health"⟩, true, 50⟩],
            0, "round_robin"⟩ : LoadBalancer).backends).length
      = callResult ⟨[⟨⟨"b1", "u1", 50, "/health"⟩, true, 50⟩,
             ⟨⟨"b2", "u2", 50, "/health"⟩, true, 50⟩], 0, "round_robin"⟩ 0 0 :=
  roundRobin_rotation_no_wrap _ rfl (by decide) (by decide)

/-- A reachable state exhibiting the cursor-reset safety valve firing in
the middle of a rotation: three healthy backends, cursor 999,998. -/
def wrapLB : LoadBalancer :=
  ⟨[⟨⟨"b1", "u1", 1, "/health"⟩, true, 1⟩,
    ⟨⟨"b2", "u2", 1, "/health"⟩, true, 1⟩,
    ⟨⟨"b3", "u3", 1, "/health"⟩, true, 1⟩],
   999998, "round_robin"⟩

/-- C2 counterexample — with three healthy backends and cursor 999,998 the
first three `NextBackend` calls select indices 2, 0, 0: backend `b2` is
never visited, so the three calls do not visit every healthy backend
exactly once, refuting the claim for arbitrary cursor values. -/
theorem roundRobin_rotation_counterexample :
    (List.range (getHealthyBackendsLocked wrapLB.backends).length).map
        (fun k => callResult wrapLB 0 k)
      = [some ⟨"b3", "u3", 1, "/health"⟩, some ⟨"b1", "u1", 1, "/health"⟩,
         some ⟨"b1", "u1", 1, "/health"⟩]
    ∧ ¬ List.Perm
      ((List.range (getHealthyBackendsLocked wrapLB.backends).length).map
        (fun k => callResult wrapLB 0 k))
      ((getHealthyBackendsLocked wrapLB.backends).map (fun s => some s.backend)) := by
  constructor
  · rfl
  · decide

/-! ## Response-status interception (claim C3) -/

/-- The code of the last `WriteHeader` in the sequence, or the default when
none occurs. -/
def lastStatusOf (deflt : Nat) : List WriteEvent → Nat
  | [] => deflt
  | WriteEvent.header c :: rest => lastStatusOf c rest
  | WriteEvent.body _ :: rest => lastStatusOf deflt rest

theorem runWrites_general (evs : List WriteEvent) :
    ∀ rw : ResponseWriter,
      (runWrites rw evs).statusCode = lastStatusOf rw.statusCode evs
      ∧ (runWrites rw evs).underlyingHeaders
          = rw.underlyingHeaders ++ headerCodes evs
      ∧ (runWrites rw evs).underlyingBody = rw.underlyingBody ++ bodyWrites evs := by
  induction evs with
  | nil => intro rw; simp [runWrites, lastStatusOf, headerCodes, bodyWrites]
  | cons e rest ih =>
      intro rw
      cases e with
      | header c =>
          obtain ⟨h1, h2, h3⟩ := ih (writeHeader rw c)
          refine ⟨?_, ?_, ?_⟩
          · rw [runWrites, h1]; rfl
          · rw [runWrites, h2, headerCodes]
            simp [writeHeader]
          · rw [runWrites, h3, bodyWrites]
            simp [writeHeader]
      | body s =>
          obtain ⟨h1, h2, h3⟩ := ih (writeBody rw s)
          refine ⟨?_, ?_, ?_⟩
          · rw [runWrites, h1]; rfl
          · rw [runWrites, h2, headerCodes]
            simp [writeBody]
          · rw [runWrites, h3, bodyWrites]
            simp [writeBody]

/-- C3 counterexample — the interceptor does not report the first status
code written: after `WriteHeader(201); WriteHeader(404)` the recorded code
is 404, not the first code 201 (`WriteHeader` overwrites `statusCode` on
every call). -/
theorem responseWriter_first_status_counterexample :
    statusCodeStr (runWrites NewResponseWriter
        [WriteEvent.header 201, WriteEvent.header 404]) = "404"
    ∧ statusCodeStr (runWrites NewResponseWriter
        [WriteEvent.header 201, WriteEvent.header 404]) ≠ "201" := by
  constructor
  · rfl
  · decide

/-- C3 (amended) — the interceptor records the **last** status code written
through `WriteHeader` (not the first), passes every `WriteHeader` and
`Write` through to the underlying writer unchanged and in order, and
reports the implicit OK status 200 when `WriteHeader` was never called. -/
theorem responseWriter_records_last_status (evs : List WriteEvent) :
    (runWrites NewResponseWriter evs).statusCode = lastStatusOf 200 evs
    ∧ (runWrites NewResponseWriter evs).underlyingHeaders = headerCodes evs
    ∧ (runWrites NewResponseWriter evs).underlyingBody = bodyWrites evs := by
  obtain ⟨h1, h2, h3⟩ := runWrites_general evs NewResponseWriter
  refine ⟨h1, ?_, ?_⟩
  · rw [h2]; rfl
  · rw [h3]; rfl

/-! ## Health flips and selection eligibility (claim C4) -/

theorem setHealthAux_false_all (n : String) :
    ∀ bs : List BackendStatus,
      (bs.map (fun s => s.backend.name)).Nodup →
      ∀ s ∈ (setBackendHealthAux n false bs).1,
        s.backend.name = n → s.healthy = false := by
  intro bs
  induction bs with
  | nil => intro _ s hs _; simp [setBackendHealthAux] at hs
  | cons b rest ih =>
      intro hnodup s hs hname
      rw [setBackendHealthAux] at hs
      have hnd1 : b.backend.name ∉ rest.map (fun s => s.backend.name) :=
        (List.nodup_cons.mp hnodup).1
      have hnd2 : (rest.map (fun s => s.backend.name)).Nodup :=
        (List.nodup_cons.mp hnodup).2
      by_cases hb : b.backend.name = n
      · rw [if_pos hb] at hs
        by_cases hh : b.healthy ≠ false
        · rw [if_pos hh] at hs
          rcases List.mem_cons.mp hs with h | h
          · rw [h]
          · exfalso
            exact hnd1 (hb ▸ hname ▸ List.mem_map_of_mem _ h)
        · rw [if_neg hh] at hs
          rcases List.mem_cons.mp hs with h | h
          · rw [h]; simpa using hh
          · exfalso
            exact hnd1 (hb ▸ hname ▸ List.mem_map_of_mem _ h)
      · rw [if_neg hb] at hs
        simp only [List.mem_cons] at hs
        rcases hs with h | h
        · exact absurd (h ▸ hname) hb
        · exact ih hnd2 s h hname

theorem nextBackend_avoids_unhealthy_name (lb : LoadBalancer) (n : String)
    (hall : ∀ s ∈ lb.backends, s.backend.name = n → s.healthy = false) :
    ∀ draw b, (NextBackend lb draw).1 = some b → b.name ≠ n := by
  intro draw b hb hbn
  obtain ⟨s, hs, hsb⟩ := nextBackend_fst_mem lb draw b hb
  rw [getHealthyBackendsLocked, List.mem_filter] at hs
  have := hall s hs.1 (by rw [hsb]; exact hbn)
  rw [this] at hs
  exact Bool.noConfusion hs.2

theorem setHealthAux_true_mem (n : String) :
    ∀ bs : List BackendStatus,
      n ∈ bs.map (fun s => s.backend.name) →
      ∃ s ∈ (setBackendHealthAux n true bs).1,
        s.backend.name = n ∧ s.healthy = true := by
  intro bs
  induction bs with
  | nil => intro h; simp at h
  | cons b rest ih =>
      intro hmem
      rw [setBackendHealthAux]
      by_cases hb : b.backend.name = n
      · rw [if_pos hb]
        by_cases hh : b.healthy ≠ true
        · rw [if_pos hh]
          exact ⟨{ b with healthy := true },
            List.mem_cons_self _ _, hb, rfl⟩
        · rw [if_neg hh]
          exact ⟨b, List.mem_cons_self _ _, hb, by simpa using hh⟩
      · rw [if_neg hb]
        have hmem' : n ∈ rest.map (fun s => s.backend.name) := by
          rcases List.mem_cons.mp hmem with h | h
          · exact absurd h.symm hb
          · exact h
        obtain ⟨s, hs, hsn, hsh⟩ := ih hmem'
        exact ⟨s, List.mem_cons_of_mem _ hs, hsn, hsh⟩

theorem roundRobin_fst_get? (lb : LoadBalancer) (healthy : List BackendStatus)
    (h : healthy ≠ []) :
    (roundRobin lb healthy).1 =
      (healthy.get? (lb.currentIndex % healthy.length)).map (·.backend) := by
  rw [roundRobin_fst lb healthy h,
    List.get?_eq_get (Nat.mod_lt _ (List.length_pos.mpr h))]
  rfl

theorem roundRobin_eligible (lb : LoadBalancer) (s : BackendStatus)
    (hs : s ∈ getHealthyBackendsLocked lb.backends) :
    ∃ c b, (NextBackend { lb with currentIndex := c, algorithm := "round_robin" } 0).1
        = some b ∧ b = s.backend := by
  obtain ⟨i, hget⟩ := List.mem_iff_get.mp hs
  have hne : getHealthyBackendsLocked lb.backends ≠ [] := by
    intro hnil; rw [hnil] at hs; exact List.not_mem_nil s hs
  refine ⟨(i : Nat), s.backend, ?_, rfl⟩
  have hne2 : getHealthyBackendsLocked
      ({ lb with currentIndex := (i : Nat), algorithm := "round_robin" }
        : LoadBalancer).backends ≠ [] := hne
  rw [nextBackend_rr { lb with currentIndex := (i : Nat), algorithm := "round_robin" }
      0 rfl hne2,
    roundRobin_fst_get? _ _ hne2]
  show ((getHealthyBackendsLocked lb.backends).get?
      ((i : Nat) % (getHealthyBackendsLocked lb.backends).length)).map
      (fun x => x.backend) = some s.backend
  rw [Nat.mod_eq_of_lt i.isLt, List.get?_eq_get i.isLt]
  have hg : (getHealthyBackendsLocked lb.backends).get ⟨(i : Nat), i.isLt⟩ = s := hget
  rw [hg]
  rfl

/-- C4 — after `SetBackendHealth(name, false)` (in a registry whose names
are unique, the data-model invariant), no `NextBackend` call under any
algorithm or draw returns a backend with that name, and `NextBackend`
leaves the backend table unchanged, so this persists across calls while the
flag stays false; after `SetBackendHealth(name, true)` of a registered
name, the named backend is immediately in the healthy snapshot and some
cursor makes round-robin select it. -/
theorem setBackendHealth_quarantine_and_restore (lb : LoadBalancer) (n : String)
    (hnodup : (lb.backends.map (fun s => s.backend.name)).Nodup) :
    (∀ draw b, (NextBackend (SetBackendHealth lb n false).1 draw).1 = some b →
        b.name ≠ n)
    ∧ (∀ draw, (NextBackend (SetBackendHealth lb n false).1 draw).2.backends
        = (SetBackendHealth lb n false).1.backends)
    ∧ (n ∈ lb.backends.map (fun s => s.backend.name) →
        (∃ s ∈ getHealthyBackendsLocked (SetBackendHealth lb n true).1.backends,
          s.backend.name = n)
        ∧ ∃ c b, (NextBackend { (SetBackendHealth lb n true).1 with
              currentIndex := c, algorithm := "round_robin" } 0).1 = some b
            ∧ b.name = n) := by
  refine ⟨?_, ?_, ?_⟩
  · intro draw b hb
    refine nextBackend_avoids_unhealthy_name _ n ?_ draw b hb
    intro s hs hn
    exact setHealthAux_false_all n lb.backends hnodup s hs hn
  · intro draw
    exact nextBackend_backends _ draw
  · intro hmem
    obtain ⟨s, hs, hsn, hsh⟩ := setHealthAux_true_mem n lb.backends hmem
    have hsf : s ∈ getHealthyBackendsLocked
        (SetBackendHealth lb n true).1.backends := by
      rw [getHealthyBackendsLocked, List.mem_filter]
      exact ⟨hs, by rw [hsh]⟩
    refine ⟨⟨s, hsf, hsn⟩, ?_⟩
    obtain ⟨c, b, hb, hbs⟩ := roundRobin_eligible (SetBackendHealth lb n true).1 s hsf
    exact ⟨c, b, hb, by rw [hbs, hsn]⟩

/-- A two-backend registry with distinct names, used to instantiate C4. -/
def pairLB : LoadBalancer :=
  ⟨[⟨⟨"a", "ua", 1, "/health"⟩, true, 1⟩,
    ⟨⟨"b", "ub", 1, "/health"⟩, true, 1⟩], 0, "round_robin"⟩

/-- C4 witness: quarantine and restore of backend `a` in a two-backend
registry. -/
theorem setBackendHealth_quarantine_and_restore_witness :
    (∀ draw b, (NextBackend (SetBackendHealth pairLB "a" false).1 draw).1 = some b →
        b.name ≠ "a")
    ∧ (∀ draw, (NextBackend (SetBackendHealth pairLB "a" false).1 draw).2.backends
        = (SetBackendHealth pairLB "a" false).1.backends)
    ∧ ("a" ∈ pairLB.backends.map (fun s => s.backend.name) →
        (∃ s ∈ getHealthyBackendsLocked (SetBackendHealth pairLB "a" true).1.backends,
          s.backend.name = "a")
        ∧ ∃ c b, (NextBackend { (SetBackendHealth pairLB "a" true).1 with
              currentIndex := c, algorithm := "round_robin" } 0).1 = some b
            ∧ b.name = "a") :=
  setBackendHealth_quarantine_and_restore pairLB "a" (by decide)

/-! ## Weighted selection (claim C5) -/

/-- Cumulative weight of the first `i` entries of a snapshot: entry `i`'s
slice of the draw space is `[prefixWeight l i, prefixWeight l (i+1))`. -/
def prefixWeight (l : List BackendStatus) (i : Nat) : Int :=
  ((l.take i).map (·.weight)).sum

theorem weightedWalk_in_slice (draw : Int) :
    ∀ (l : List BackendStatus) (acc : Int),
      acc ≤ draw → draw < acc + totalWeightOf l →
      ∃ i, ∃ hi : i < l.length,
        weightedWalk draw acc l = some ((l.get ⟨i, hi⟩).backend)
        ∧ acc + prefixWeight l i ≤ draw
        ∧ draw < acc + prefixWeight l (i + 1) := by
  intro l
  induction l with
  | nil =>
      intro acc hlo hhi
      exfalso
      rw [totalWeightOf] at hhi
      simp only [List.map_nil, List.sum_nil] at hhi
      omega
  | cons b rest ih =>
      intro acc hlo hhi
      by_cases hlt : draw < acc + b.weight
      · refine ⟨0, Nat.succ_pos _, ?_, ?_, ?_⟩
        · rw [weightedWalk, if_pos hlt]
          rfl
        · rw [prefixWeight]
          simp only [List.take_zero, List.map_nil, List.sum_nil]
          omega
        · rw [prefixWeight]
          simp only [List.take_succ_cons, List.take_zero, List.map_cons,
            List.map_nil, List.sum_cons, List.sum_nil]
          omega
      · have hlo' : acc + b.weight ≤ draw := not_lt.mp hlt
        have hhi' : draw < (acc + b.weight) + totalWeightOf rest := by
          rw [totalWeightOf] at hhi ⊢
          simp only [List.map_cons, List.sum_cons] at hhi
          omega
        obtain ⟨i, hi, hw, hp1, hp2⟩ := ih (acc + b.weight) hlo' hhi'
        have hpe1 : prefixWeight (b :: rest) (i + 1) = b.weight + prefixWeight rest i := by
          rw [prefixWeight, prefixWeight]
          simp only [List.take_succ_cons, List.map_cons, List.sum_cons]
        have hpe2 : prefixWeight (b :: rest) (i + 2) = b.weight + prefixWeight rest (i + 1) := by
          rw [prefixWeight, prefixWeight]
          simp only [List.take_succ_cons, List.map_cons, List.sum_cons]
        refine ⟨i + 1, Nat.succ_lt_succ hi, ?_, ?_, ?_⟩
        · rw [weightedWalk, if_neg hlt]
          exact hw
        · rw [hpe1]; omega
        · rw [hpe2]; omega

/-- C5 — in `weightedRoundRobin`: with a zero total weight the call falls
back to the round-robin step; with a positive total, non-negative weights
and any draw in `[0, totalWeight)` (the range `rand.Intn(totalWeight)`
produces), the accumulation walk selects the entry whose cumulative-weight
slice contains the draw, so the defensive first-entry fallback is
unreachable and the result is the walk's selection. -/
theorem weightedRoundRobin_fallback_and_total (lb : LoadBalancer)
    (healthy : List BackendStatus) (draw : Int) (hne : healthy ≠ []) :
    (totalWeightOf healthy = 0 →
      weightedRoundRobin lb healthy draw = roundRobin lb healthy)
    ∧ (0 < totalWeightOf healthy →
       (∀ s ∈ healthy, 0 ≤ s.weight) →
       0 ≤ draw → draw < totalWeightOf healthy →
       ∃ i, ∃ hi : i < healthy.length,
         weightedWalk draw 0 healthy = some ((healthy.get ⟨i, hi⟩).backend)
         ∧ prefixWeight healthy i ≤ draw
         ∧ draw < prefixWeight healthy (i + 1)
         ∧ weightedRoundRobin lb healthy draw
             = (some ((healthy.get ⟨i, hi⟩).backend), lb)) := by
  constructor
  · intro hz
    match healthy, hne with
    | b0 :: rest, _ =>
        rw [weightedRoundRobin, if_pos hz]
  · intro hpos hw hd0 hdt
    have hwalk := weightedWalk_in_slice draw healthy 0 hd0 (by omega)
    obtain ⟨i, hi, hws, hp1, hp2⟩ := hwalk
    refine ⟨i, hi, hws, by simpa using hp1, by simpa using hp2, ?_⟩
    match healthy, hne, hi, hws with
    | b0 :: rest, _, hi, hws =>
        rw [weightedRoundRobin, if_neg (by omega), hws]

/-- C5 witness: weights 75/25, draw 80 lands in the second entry's slice. -/
theorem weightedRoundRobin_fallback_and_total_witness :
    (totalWeightOf [⟨⟨"a", "ua", 75, "/health"⟩, true, 75⟩,
        ⟨⟨"b", "ub", 25, "/health"⟩, true, 25⟩] = 0 →
      weightedRoundRobin ⟨[], 0, "weighted_round_robin"⟩
          [⟨⟨"a", "ua", 75, "/health"⟩, true, 75⟩,
           ⟨⟨"b", "ub", 25, "/health"⟩, true, 25⟩] 80
        = roundRobin ⟨[], 0, "weighted_round_robin"⟩
            [⟨⟨"a", "ua", 75, "/health"⟩, true, 75⟩,
             ⟨⟨"b", "ub", 25, "/health"⟩, true, 25⟩])
    ∧ (0 < totalWeightOf [⟨⟨"a", "ua", 75, "/health"⟩, true, 75⟩,
          ⟨⟨"b", "ub", 25, "/health"⟩, true, 25⟩] →
       (∀ s ∈ ([⟨⟨"a", "ua", 75, "/health"⟩, true, 75⟩,
          ⟨⟨"b", "ub", 25, "/health"⟩, true, 25⟩] : List BackendStatus),
          0 ≤ s.weight) →
       (0 : Int) ≤ 80 → (80 : Int) < totalWeightOf
          [⟨⟨"a", "ua", 75, "/health"⟩, true, 75⟩,
           ⟨⟨"b", "ub", 25, "/health"⟩, true, 25⟩] →
       ∃ i, ∃ hi : i < ([⟨⟨"a", "ua", 75, "/health"⟩, true, 75⟩,
            ⟨⟨"b", "ub", 25, "/health"⟩, true, 25⟩]
            : List BackendStatus).length,
         weightedWalk 80 0 [⟨⟨"a", "ua", 75, "/health"⟩, true, 75⟩,
            ⟨⟨"b", "ub", 25, "/health"⟩, true, 25⟩]
           = some ((([⟨⟨"a", "ua", 75, "/health"⟩, true, 75⟩,
              ⟨⟨"b", "ub", 25, "/health"⟩, true, 25⟩]
              : List BackendStatus).get ⟨i, hi⟩).backend)
         ∧ prefixWeight [⟨⟨"a", "ua", 75, "/health"⟩, true, 75⟩,
              ⟨⟨"b", "ub", 25, "/health"⟩, true, 25⟩] i ≤ 80
         ∧ (80 : Int) < prefixWeight [⟨⟨"a", "ua", 75, "/health"⟩, true, 75⟩,
              ⟨⟨"b", "ub", 25, "/health"⟩, true, 25⟩] (i + 1)
         ∧ weightedRoundRobin ⟨[], 0, "weighted_round_robin"⟩
              [⟨⟨"a", "ua", 75, "/health"⟩, true, 75⟩,
               ⟨⟨"b", "ub", 25, "/health"⟩, true, 25⟩] 80
             = (some ((([⟨⟨"a", "ua", 75, "/health"⟩, true, 75⟩,
                ⟨⟨"b", "ub", 25, "/health"⟩, true, 25⟩]
                : List BackendStatus).get ⟨i, hi⟩).backend),
                ⟨[], 0, "weighted_round_robin"⟩)) :=
  weightedRoundRobin_fallback_and_total ⟨[], 0, "weighted_round_robin"⟩
    [⟨⟨"a", "ua", 75, "/health"⟩, true, 75⟩,
     ⟨⟨"b", "ub", 25, "/health"⟩, true, 25⟩] 80 (by decide)

/-! ## Health endpoint, admission exemptions, unknown-name updates,
metrics middleware (claims C7, C8, C9, C10) -/

/-- C7 — the endpoint `GET /health` answers 200 with the `healthy` body and the healthy
count when some backend is healthy, and 503 with the `unhealthy` body and
count 0 when none is. -/
theorem healthHandler_status_body (lb : LoadBalancer) :
    (0 < (getHealthyBackendsLocked lb.backends).length →
      healthHandler lb = (200, "\x7b\"status\":\"healthy\",\"healthy_backends\":"
        ++ toString (getHealthyBackendsLocked lb.backends).length ++ "\x7d"))
    ∧ ((getHealthyBackendsLocked lb.backends).length = 0 →
      healthHandler lb = (503, "\x7b\"status\":\"unhealthy\",\"healthy_backends\":0\x7d")) := by
  constructor
  · intro h
    have hne : ¬ (getHealthyBackendsLocked lb.backends).length = 0 := by omega
    simp [healthHandler, hne]
  · intro h
    simp [healthHandler, h]
    rfl

/-- C7 witness: one healthy backend gives 200, and the all-unhealthy
variant gives 503. -/
theorem healthHandler_status_body_witness :
    (0 < (getHealthyBackendsLocked
        (⟨[⟨⟨"a", "ua", 1, "/health"⟩, true, 1⟩], 0, "round_robin"⟩
          : LoadBalancer).backends).length →
      healthHandler ⟨[⟨⟨"a", "ua", 1, "/health"⟩, true, 1⟩], 0, "round_robin"⟩
        = (200, "\x7b\"status\":\"healthy\",\"healthy_backends\":"
          ++ toString (getHealthyBackendsLocked
              (⟨[⟨⟨"a", "ua", 1, "/health"⟩, true, 1⟩], 0, "round_robin"⟩
                : LoadBalancer).backends).length ++ "\x7d"))
    ∧ ((getHealthyBackendsLocked
        (⟨[⟨⟨"a", "ua", 1, "/health"⟩, true, 1⟩], 0, "round_robin"⟩
          : LoadBalancer).backends).length = 0 →
      healthHandler ⟨[⟨⟨"a", "ua", 1, "/health"⟩, true, 1⟩], 0, "round_robin"⟩
        = (503, "\x7b\"status\":\"unhealthy\",\"healthy_backends\":0\x7d")) :=
  healthHandler_status_body ⟨[⟨⟨"a", "ua", 1, "/health"⟩, true, 1⟩], 0, "round_robin"⟩

/-- C8 — requests whose path is exactly `/health` or `/metrics` bypass the
admission gate: the inner response is returned unchanged (never a gate 429),
the bucket state is untouched and no rate-limit metric is recorded. -/
theorem rateLimit_exempt_paths_bypass (lim : RateLimiter) (now : ℚ)
    (path : String) (inner : HttpResponse)
    (hp : path = "/health" ∨ path = "/metrics") :
    rateLimitWrap lim now path inner = (inner, lim, []) := by
  rw [rateLimitWrap, if_pos hp]

/-- C8 witness: path `/health` with an empty bucket. -/
theorem rateLimit_exempt_paths_bypass_witness :
    rateLimitWrap ⟨1/60, 1, 0, 0⟩ 0 "/health" ⟨200, [], "OK"⟩
      = (⟨200, [], "OK"⟩, ⟨1/60, 1, 0, 0⟩, []) :=
  rateLimit_exempt_paths_bypass ⟨1/60, 1, 0, 0⟩ 0 "/health" ⟨200, [], "OK"⟩
    (Or.inl rfl)

/-- C9 — calling `SetBackendHealth` with a name matching no registry entry is a
no-op on the backend table; the only observable effect is a warning-level
log event, and the call has no failure result for its caller (its return
type carries none). -/
theorem setBackendHealth_unknown_name_noop (lb : LoadBalancer) (n : String)
    (v : Bool) (habs : ∀ s ∈ lb.backends, s.backend.name ≠ n) :
    SetBackendHealth lb n v = (lb, [LogEvent.warnBackendNotFound n]) := by
  have haux : ∀ bs : List BackendStatus, (∀ s ∈ bs, s.backend.name ≠ n) →
      setBackendHealthAux n v bs = (bs, [LogEvent.warnBackendNotFound n]) := by
    intro bs
    induction bs with
    | nil => intro _; rfl
    | cons b rest ih =>
        intro hall
        rw [setBackendHealthAux,
          if_neg (hall b (List.mem_cons_self b rest)),
          ih (fun s hs => hall s (List.mem_cons_of_mem b hs))]
  simp only [SetBackendHealth, haux lb.backends habs]

/-- C9 witness: updating an unregistered name in a two-backend registry. -/
theorem setBackendHealth_unknown_name_noop_witness :
    SetBackendHealth pairLB "ghost" false
      = (pairLB, [LogEvent.warnBackendNotFound "ghost"]) :=
  setBackendHealth_unknown_name_noop pairLB "ghost" false (by decide)

/-- C10 — the metrics middleware records exactly one generic request
metric (method, written status, backend label `gateway`, duration) for
every request whose path is not exactly `/metrics`, and records nothing for
a `/metrics` request. -/
theorem metricsWrap_skips_metrics_path (method path : String)
    (innerWrites : List WriteEvent) (duration : ℚ) :
    (path = "/metrics" → metricsWrap method path innerWrites duration = [])
    ∧ (path ≠ "/metrics" → metricsWrap method path innerWrites duration
        = [MetricEvent.request method
            (statusCodeStr (runWrites NewResponseWriter innerWrites))
            "gateway" duration]) := by
  constructor
  · intro h; simp [metricsWrap, h]
  · intro h; simp [metricsWrap, h]

/-- C10 witness: a `/metrics` request records nothing, a `/test` request
records one event with the status its handler wrote. -/
theorem metricsWrap_skips_metrics_path_witness :
    metricsWrap "GET" "/metrics" [] 0 = []
    ∧ metricsWrap "GET" "/test" [WriteEvent.header 200] 0
      = [MetricEvent.request "GET" "200" "gateway" 0] :=
  ⟨(metricsWrap_skips_metrics_path "GET" "/metrics" [] 0).1 rfl,
   by
     rw [(metricsWrap_skips_metrics_path "GET" "/test"
        [WriteEvent.header 200] 0).2 (by decide)]
     rfl⟩

/-! ## Rate limiting at 1 request/minute, burst 1 (claim C6) -/

/-- C6 — with rate 1 request/minute and burst 1, a first request to a
non-exempt path at instant `t1 ≥ 0` is admitted and consumes the single
token, and a second request at `t2` less than 60 seconds later is rejected
with status 429, header `Retry-After: 60` and a rate-limit metric; the
rejected call consumes no token — the bucket afterwards holds exactly what
the refill `advanceBucket` yields. -/
theorem rateLimit_one_per_minute_burst_one (path : String) (inner : HttpResponse)
    (t1 t2 : ℚ) (hp1 : path ≠ "/health") (hp2 : path ≠ "/metrics")
    (h1 : 0 ≤ t1) (h12 : t1 ≤ t2) (h2 : t2 - t1 < 60) :
    ∃ lim1, rateLimitWrap (NewRateLimiter 1 1) t1 path inner = (inner, lim1, [])
      ∧ lim1.tokens = 0
      ∧ ∃ lim2, rateLimitWrap lim1 t2 path inner
          = (⟨429, [("Retry-After", "60")], "Rate limit exceeded\n"⟩, lim2,
            [MetricEvent.rateLimited])
        ∧ lim2.tokens = (advanceBucket lim1 t2).tokens := by
  have hexempt : ¬ (path = "/health" ∨ path = "/metrics") := by
    rintro (h | h)
    · exact hp1 h
    · exact hp2 h
  have hnn : (0 : ℚ) ≤ 1 / 60 * (t1 - 0) := by
    apply mul_nonneg
    · norm_num
    · linarith
  have hstep1 : allowAt (NewRateLimiter 1 1) t1
      = (true, ⟨1/60, 1, 0, t1⟩) := by
    simp only [NewRateLimiter, allowAt, advanceBucket, Nat.cast_one]
    have hmin : min (1 : ℚ) (1 + 1 / 60 * (t1 - 0)) = 1 := by
      apply min_eq_left
      linarith
    rw [hmin, if_pos (le_refl (1 : ℚ))]
    norm_num
  have hfill : (0 : ℚ) ≤ 1 / 60 * (t2 - t1) := by
    apply mul_nonneg
    · norm_num
    · linarith
  have hlt1 : 1 / 60 * (t2 - t1) < (1 : ℚ) := by
    nlinarith
  have hmin2 : min (1 : ℚ) (0 + 1 / 60 * (t2 - t1)) = 0 + 1 / 60 * (t2 - t1) := by
    apply min_eq_right
    linarith
  have hstep2 : allowAt ⟨1/60, 1, 0, t1⟩ t2
      = (false, ⟨1/60, 1, 0 + 1 / 60 * (t2 - t1), t2⟩) := by
    simp only [allowAt, advanceBucket, Nat.cast_one]
    rw [hmin2, if_neg (by linarith)]
  refine ⟨⟨1/60, 1, 0, t1⟩, ?_, rfl,
    ⟨1/60, 1, 0 + 1 / 60 * (t2 - t1), t2⟩, ?_, ?_⟩
  · rw [rateLimitWrap, if_neg hexempt, hstep1]
  · rw [rateLimitWrap, if_neg hexempt, hstep2]
  · simp only [advanceBucket, Nat.cast_one]
    rw [hmin2]

/-- C6 witness: two immediate requests to `/anything` at instant 0. -/
theorem rateLimit_one_per_minute_burst_one_witness :
    ∃ lim1, rateLimitWrap (NewRateLimiter 1 1) 0 "/anything" ⟨200, [], "OK"⟩
        = (⟨200, [], "OK"⟩, lim1, [])
      ∧ lim1.tokens = 0
      ∧ ∃ lim2, rateLimitWrap lim1 0 "/anything" ⟨200, [], "OK"⟩
          = (⟨429, [("Retry-After", "60")], "Rate limit exceeded\n"⟩, lim2,
            [MetricEvent.rateLimited])
        ∧ lim2.tokens = (advanceBucket lim1 0).tokens :=
  rateLimit_one_per_minute_burst_one "/anything" ⟨200, [], "OK"⟩ 0 0
    (by decide) (by decide) (by norm_num) (by norm_num) (by norm_num)

end GateKeeper
